import Mathlib

/-!
Verification of the Latchkey preorder automation pipeline.

The definitions below are a shallow embedding of `preorder_transformer.py`
and of the catalog-processing core of `streamlit_app.py`: Python strings
are `String`, Python floats are exact rationals `ℚ`, `datetime` values are
explicit year/month/day/hour/minute/second records, and functions that can
return `None` or raise are `Option`-valued.  CPython `strptime` is embedded
with its documented field regexes (`%Y` is exactly four digits, `%y` exactly
two, `%m`/`%d`/`%H`/`%M`/`%S` accept a two-digit match first and then a
one-digit match, in regex backtracking order) followed by the `datetime`
constructor's range validation.
-/

namespace Latchkey

/-- A calendar date, the result of Python `datetime.date()`. -/
structure Date where
  year : Nat
  month : Nat
  day : Nat
deriving DecidableEq, Repr

/-- A `datetime.datetime` value as produced by `datetime.strptime`. -/
structure DateTime where
  year : Nat
  month : Nat
  day : Nat
  hour : Nat
  minute : Nat
  second : Nat
deriving DecidableEq, Repr

/-- Python `datetime.date()`: discard the time-of-day. -/
def DateTime.toDate (dt : DateTime) : Date := ⟨dt.year, dt.month, dt.day⟩

def isLeapYear (y : Nat) : Bool := (y % 4 == 0 && y % 100 != 0) || (y % 400 == 0)

def daysInMonth (y m : Nat) : Nat :=
  if m = 2 then (if isLeapYear y then 29 else 28)
  else if m = 4 ∨ m = 6 ∨ m = 9 ∨ m = 11 then 30
  else 31

/-- The `datetime` constructor's validity check (`MINYEAR = 1`, `MAXYEAR = 9999`). -/
def validDateTime (dt : DateTime) : Bool :=
  decide (1 ≤ dt.year) && decide (dt.year ≤ 9999) &&
  decide (1 ≤ dt.month) && decide (dt.month ≤ 12) &&
  decide (1 ≤ dt.day) && decide (dt.day ≤ daysInMonth dt.year dt.month) &&
  decide (dt.hour ≤ 23) && decide (dt.minute ≤ 59) && decide (dt.second ≤ 59)

/- Structural models of the Python string primitives the pipeline uses
(`str.strip`, `str.lower`, `str.split`, `str.replace`, `str.startswith`),
written over `List Char` so that they evaluate by kernel reduction. -/

/-- Python `str.strip()`: drop whitespace from both ends. -/
def pyStripChars (cs : List Char) : List Char :=
  ((cs.dropWhile Char.isWhitespace).reverse.dropWhile Char.isWhitespace).reverse

def pyStrip (s : String) : String := ⟨pyStripChars s.data⟩

/-- Python `str.lower()` (ASCII model). -/
def pyLower (s : String) : String := ⟨s.data.map Char.toLower⟩

/-- Python `str.split(sep)` for a one-character separator, keeping empty
pieces. -/
def splitOnChGo (sep : Char) (acc : List Char) : List Char → List (List Char)
  | [] => [acc.reverse]
  | c :: rest =>
    if c = sep then acc.reverse :: splitOnChGo sep [] rest
    else splitOnChGo sep (c :: acc) rest

def splitOnCh (sep : Char) (cs : List Char) : List (List Char) := splitOnChGo sep [] cs

def stripPrefixCh : List Char → List Char → Option (List Char)
  | [], cs => some cs
  | _ :: _, [] => none
  | p :: ps, c :: cs => if p = c then stripPrefixCh ps cs else none

/-- Python `str.replace(pat, rep)` for a non-empty pattern: replace each
non-overlapping occurrence left to right.  The fuel argument (instantiated
with the input length, an upper bound on the steps taken) keeps the
recursion structural. -/
def pyReplaceFuel (pat rep : List Char) : Nat → List Char → List Char
  | _, [] => []
  | 0, cs => cs
  | fuel + 1, c :: rest =>
    match stripPrefixCh pat (c :: rest) with
    | some rest2 => rep ++ pyReplaceFuel pat rep fuel rest2
    | none => c :: pyReplaceFuel pat rep fuel rest

def pyReplace (pat rep cs : List Char) : List Char := pyReplaceFuel pat rep cs.length cs

def digitVal (c : Char) : Option Nat :=
  if '0' ≤ c ∧ c ≤ '9' then some (c.toNat - 48) else none

/-- Candidates for a CPython `strptime` numeric field whose regex offers
two-digit alternatives before a one-digit alternative (`%m`, `%d`, `%H`,
`%M`, `%S`), listed in regex backtracking order. -/
def pField (ok2 ok1 : Nat → Bool) : List Char → List (Nat × List Char)
  | c1 :: c2 :: rest =>
    (match digitVal c1, digitVal c2 with
     | some a, some b => if ok2 (10 * a + b) then [(10 * a + b, rest)] else []
     | _, _ => []) ++
    (match digitVal c1 with
     | some a => if ok1 a then [(a, c2 :: rest)] else []
     | _ => [])
  | [c1] =>
    match digitVal c1 with
    | some a => if ok1 a then [(a, [])] else []
    | _ => []
  | [] => []

/-- `%Y`: exactly four digits. -/
def pYear4 : List Char → List (Nat × List Char)
  | c1 :: c2 :: c3 :: c4 :: rest =>
    match digitVal c1, digitVal c2, digitVal c3, digitVal c4 with
    | some a, some b, some c, some d => [(1000 * a + 100 * b + 10 * c + d, rest)]
    | _, _, _, _ => []
  | _ => []

/-- `%y`: exactly two digits, with the CPython century pivot (≤ 68 → 2000s). -/
def pYear2 : List Char → List (Nat × List Char)
  | c1 :: c2 :: rest =>
    match digitVal c1, digitVal c2 with
    | some a, some b =>
      let y := 10 * a + b
      [(if y ≤ 68 then 2000 + y else 1900 + y, rest)]
    | _, _ => []
  | _ => []

def pMonth : List Char → List (Nat × List Char) :=
  pField (fun n => decide (1 ≤ n) && decide (n ≤ 12)) (fun n => decide (1 ≤ n) && decide (n ≤ 9))

def pDay : List Char → List (Nat × List Char) :=
  pField (fun n => decide (1 ≤ n) && decide (n ≤ 31)) (fun n => decide (1 ≤ n) && decide (n ≤ 9))

def pHour : List Char → List (Nat × List Char) :=
  pField (fun n => decide (n ≤ 23)) (fun n => decide (n ≤ 9))

def pMinute : List Char → List (Nat × List Char) :=
  pField (fun n => decide (n ≤ 59)) (fun n => decide (n ≤ 9))

def pSecond : List Char → List (Nat × List Char) :=
  pField (fun n => decide (n ≤ 61)) (fun n => decide (n ≤ 9))

def pLit (lit : Char) : List Char → List (Unit × List Char)
  | c :: rest => if c = lit then [((), rest)] else []
  | [] => []

/-- `%H:%M:%S`. -/
def pTime (cs : List Char) : List ((Nat × Nat × Nat) × List Char) :=
  (pHour cs).flatMap fun hr =>
  (pLit ':' hr.2).flatMap fun l1 =>
  (pMinute l1.2).flatMap fun mr =>
  (pLit ':' mr.2).flatMap fun l2 =>
  (pSecond l2.2).map fun sr => ((hr.1, mr.1, sr.1), sr.2)

/-- The seven `AvailDt` format strings of `parse_avail_date`, in source order:
`%Y-%m-%d %H:%M:%S`, `%Y-%m-%d`, `%m/%d/%Y %H:%M:%S`, `%m/%d/%Y`,
`%m-%d-%Y`, `%Y%m%d`, `%m/%d/%y`. -/
inductive AvailFmt where
  | ymdHMS | ymd | mdyHMS | mdy | mdyDash | ymdCompact | mdy2
deriving DecidableEq, Repr

/-- All pattern matches of one format string against the input, in regex
backtracking order; the first element is the match `re.match` returns. -/
def runFmt : AvailFmt → List Char → List (DateTime × List Char)
  | .ymdHMS, cs =>
    (pYear4 cs).flatMap fun yr =>
    (pLit '-' yr.2).flatMap fun l1 =>
    (pMonth l1.2).flatMap fun mr =>
    (pLit '-' mr.2).flatMap fun l2 =>
    (pDay l2.2).flatMap fun dr =>
    (pLit ' ' dr.2).flatMap fun l3 =>
    (pTime l3.2).map fun tr =>
      (⟨yr.1, mr.1, dr.1, tr.1.1, tr.1.2.1, tr.1.2.2⟩, tr.2)
  | .ymd, cs =>
    (pYear4 cs).flatMap fun yr =>
    (pLit '-' yr.2).flatMap fun l1 =>
    (pMonth l1.2).flatMap fun mr =>
    (pLit '-' mr.2).flatMap fun l2 =>
    (pDay l2.2).map fun dr => (⟨yr.1, mr.1, dr.1, 0, 0, 0⟩, dr.2)
  | .mdyHMS, cs =>
    (pMonth cs).flatMap fun mr =>
    (pLit '/' mr.2).flatMap fun l1 =>
    (pDay l1.2).flatMap fun dr =>
    (pLit '/' dr.2).flatMap fun l2 =>
    (pYear4 l2.2).flatMap fun yr =>
    (pLit ' ' yr.2).flatMap fun l3 =>
    (pTime l3.2).map fun tr =>
      (⟨yr.1, mr.1, dr.1, tr.1.1, tr.1.2.1, tr.1.2.2⟩, tr.2)
  | .mdy, cs =>
    (pMonth cs).flatMap fun mr =>
    (pLit '/' mr.2).flatMap fun l1 =>
    (pDay l1.2).flatMap fun dr =>
    (pLit '/' dr.2).flatMap fun l2 =>
    (pYear4 l2.2).map fun yr => (⟨yr.1, mr.1, dr.1, 0, 0, 0⟩, yr.2)
  | .mdyDash, cs =>
    (pMonth cs).flatMap fun mr =>
    (pLit '-' mr.2).flatMap fun l1 =>
    (pDay l1.2).flatMap fun dr =>
    (pLit '-' dr.2).flatMap fun l2 =>
    (pYear4 l2.2).map fun yr => (⟨yr.1, mr.1, dr.1, 0, 0, 0⟩, yr.2)
  | .ymdCompact, cs =>
    (pYear4 cs).flatMap fun yr =>
    (pMonth yr.2).flatMap fun mr =>
    (pDay mr.2).map fun dr => (⟨yr.1, mr.1, dr.1, 0, 0, 0⟩, dr.2)
  | .mdy2, cs =>
    (pMonth cs).flatMap fun mr =>
    (pLit '/' mr.2).flatMap fun l1 =>
    (pDay l1.2).flatMap fun dr =>
    (pLit '/' dr.2).flatMap fun l2 =>
    (pYear2 l2.2).map fun yr => (⟨yr.1, mr.1, dr.1, 0, 0, 0⟩, yr.2)

/-- `datetime.strptime` for one format: take the regex match (the head
candidate), fail if any input remains unconverted or the field values do
not form a valid `datetime`. -/
def tryFmt (f : AvailFmt) (cs : List Char) : Option DateTime :=
  match runFmt f cs with
  | [] => none
  | (dt, rest) :: _ => if rest = [] ∧ validDateTime dt then some dt else none

def availDateFormats : List AvailFmt :=
  [.ymdHMS, .ymd, .mdyHMS, .mdy, .mdyDash, .ymdCompact, .mdy2]

def firstParse : List AvailFmt → List Char → Option DateTime
  | [], _ => none
  | f :: fs, cs =>
    match tryFmt f cs with
    | some dt => some dt
    | none => firstParse fs cs

/-- `PreorderTransformer.parse_avail_date`: strip, treat empty or the
literal `nan` marker as absent, then try the seven formats in order;
return `none` (never an error) if none matches. -/
def parse_avail_date (s : String) : Option DateTime :=
  let t := pyStrip s
  if t = "" ∨ pyLower t = "nan" then none
  else firstParse availDateFormats t.data

/- ------------------------------------------------------------------ -/
/- Python `float()` on strings, as an exact rational.                   -/
/- ------------------------------------------------------------------ -/

def natOfDigits (ds : List Nat) : Nat := ds.foldl (fun a d => 10 * a + d) 0

def takeDigits : List Char → List Nat × List Char
  | c :: rest =>
    match digitVal c with
    | some d => let p := takeDigits rest; (d :: p.1, p.2)
    | none => ([], c :: rest)
  | [] => ([], [])

/-- Python `float(s)` on decimal literals: surrounding whitespace, an
optional sign, digits with an optional fractional part (at least one digit
overall), and an optional exponent.  (`inf`/`nan` literals and underscore
separators are outside the inputs this pipeline sees and are rejected.) -/
def parseFloat (s : String) : Option ℚ :=
  let cs := pyStripChars s.data
  let sgncs : ℚ × List Char :=
    match cs with
    | '-' :: r => (-1, r)
    | '+' :: r => (1, r)
    | r => (1, r)
  let ipr := takeDigits sgncs.2
  let fpr : List Nat × List Char :=
    match ipr.2 with
    | '.' :: r => takeDigits r
    | r => ([], r)
  if ipr.1 = [] ∧ fpr.1 = [] then none
  else
    let mant : ℚ :=
      (natOfDigits ipr.1 : ℚ) + (natOfDigits fpr.1 : ℚ) / (10 : ℚ) ^ fpr.1.length
    match fpr.2 with
    | [] => some (sgncs.1 * mant)
    | e :: r =>
      if e = 'e' ∨ e = 'E' then
        let esr : Int × List Char :=
          match r with
          | '-' :: r2 => (-1, r2)
          | '+' :: r2 => (1, r2)
          | r2 => (1, r2)
        let edr := takeDigits esr.2
        if edr.1 = [] ∨ edr.2 ≠ [] then none
        else some (sgncs.1 * mant * (10 : ℚ) ^ (esr.1 * (natOfDigits edr.1 : Int)))
      else none

/- ------------------------------------------------------------------ -/
/- Pricing constants from `PreorderTransformer.__init__`.               -/
/- ------------------------------------------------------------------ -/

def cost_multiplier : ℚ := 77 / 100
def base_markup : ℚ := 6
def msrp_minimum_markup : ℚ := 7
def club_base_markup : ℚ := 6
def club_tier1_threshold : ℚ := 14
def club_tier1_addition : ℚ := 4
def club_tier2_threshold : ℚ := 20
def club_tier2_addition : ℚ := 9

/-- `PreorderTransformer.calculate_pricing`: parse the MSRP, estimate the
cost at 77%, bump the list price when the MSRP is too close to cost, and
derive the club price with its two conditional tier additions.  A parse
failure is Python's `(None, None, None)` return, here `none`. -/
def calculate_pricing (msrp : String) : Option (ℚ × ℚ × ℚ) :=
  match parseFloat msrp with
  | none => none
  | some m =>
    let estimated_cost := m * cost_multiplier
    let my_price := estimated_cost + base_markup
    let adjusted_msrp := if m < my_price + 6 then my_price + msrp_minimum_markup else m
    let club_price := estimated_cost + club_base_markup
    let cost_diff := club_price - estimated_cost
    let club_price :=
      if cost_diff > club_tier1_threshold then
        let club_price := club_price + club_tier1_addition
        let cost_diff := club_price - estimated_cost
        if cost_diff > club_tier2_threshold then club_price + club_tier2_addition
        else club_price
      else club_price
    some (estimated_cost, adjusted_msrp, club_price)

/- ------------------------------------------------------------------ -/
/- String builders.                                                    -/
/- ------------------------------------------------------------------ -/

/-- Python `str.title()` (ASCII model): a letter following a non-letter is
uppercased, every other letter is lowercased. -/
def pyTitleGo : Bool → List Char → List Char
  | _, [] => []
  | prevAlpha, c :: rest =>
    (if c.isAlpha then (if prevAlpha then c.toLower else c.toUpper) else c) ::
      pyTitleGo c.isAlpha rest

/-- The replacement dictionary of `format_vinyl_details`, in insertion
(= iteration) order. -/
def detailReplacements : List (String × String) :=
  [("Lp", "LP"), ("Ep", "EP"), ("Cd", "CD"), ("Rsd", "RSD"), ("Vinyl", "Vinyl"),
   ("Ltd", "Ltd"), ("Limited", "Limited"), ("Edition", "Edition"),
   ("Exclusive", "Exclusive"), ("Indie", "Indie"), ("Signed", "Signed"),
   ("Autographed", "Autographed"), ("Colored", "Colored"), ("Picture", "Picture"),
   ("Disc", "Disc"), ("Gatefold", "Gatefold"), ("Explicit", "Explicit"),
   ("Lyrics", "Lyrics")]

/-- One part of the detail string: title-case, apply each dictionary entry
with Python `str.replace` (plain substring replacement), then trim the
segments of any slash-separated part. -/
def formatDetailPart (part : List Char) : List Char :=
  let f := pyTitleGo false part
  let f := detailReplacements.foldl (fun acc pr => pyReplace pr.1.data pr.2.data acc) f
  if f.contains '/' then List.intercalate ['/'] ((splitOnCh '/' f).map pyStripChars)
  else f

/-- `PreorderTransformer.format_vinyl_details`: split on caret, trim and
drop empty parts, format each part, join with `", "`. -/
def format_vinyl_details (s : String) : String :=
  if pyStrip s = "" ∨ pyLower (pyStrip s) = "nan" then ""
  else
    let parts := ((splitOnCh '^' (pyStrip s).data).map pyStripChars).filter (· ≠ [])
    ⟨List.intercalate (", ".data) (parts.map formatDetailPart)⟩

/-- Look a whole word up in the replacement dictionary. -/
def replaceWord (w : List Char) : List Char :=
  match detailReplacements.find? (fun pr => pr.1.data = w) with
  | some pr => pr.2.data
  | none => w

def flushWord (w : List Char) : List Char := if w = [] then [] else replaceWord w

/-- Apply the replacement dictionary to whole words (maximal letter runs)
only — the "token replacements" reading of the specification. -/
def tokenReplaceGo (acc : List Char) : List Char → List Char
  | [] => flushWord acc
  | c :: rest =>
    if c.isAlpha then tokenReplaceGo (acc ++ [c]) rest
    else flushWord acc ++ c :: tokenReplaceGo [] rest

/-- Modelled from the spec: the detail-part formatter as the claim reads it,
with the dictionary applied as whole-word (token) replacements instead of
`str.replace` substring replacements. -/
def formatDetailPartTokens (part : List Char) : List Char :=
  let f := tokenReplaceGo [] (pyTitleGo false part)
  if f.contains '/' then List.intercalate ['/'] ((splitOnCh '/' f).map pyStripChars)
  else f

/-- Modelled from the spec: `format_vinyl_details` under the claim's
token-replacement reading of the dictionary. -/
def format_vinyl_details_tokens (s : String) : String :=
  if pyStrip s = "" ∨ pyLower (pyStrip s) = "nan" then ""
  else
    let parts := ((splitOnCh '^' (pyStrip s).data).map pyStripChars).filter (· ≠ [])
    ⟨List.intercalate (", ".data) (parts.map formatDetailPartTokens)⟩

/-- Left-pad a numeral with zeros, as `strftime` does for `%m`/`%d`/`%H`. -/
def padNum (w n : Nat) : String :=
  let s := toString n
  String.mk (List.replicate (w - s.length) '0') ++ s

/-- `strftime` of a calendar date (midnight time-of-day) under each of the
seven `AvailDt` format strings. -/
def strfDate : AvailFmt → Date → String
  | .ymdHMS, d => padNum 4 d.year ++ "-" ++ padNum 2 d.month ++ "-" ++ padNum 2 d.day ++ " 00:00:00"
  | .ymd, d => padNum 4 d.year ++ "-" ++ padNum 2 d.month ++ "-" ++ padNum 2 d.day
  | .mdyHMS, d => padNum 2 d.month ++ "/" ++ padNum 2 d.day ++ "/" ++ padNum 4 d.year ++ " 00:00:00"
  | .mdy, d => padNum 2 d.month ++ "/" ++ padNum 2 d.day ++ "/" ++ padNum 4 d.year
  | .mdyDash, d => padNum 2 d.month ++ "-" ++ padNum 2 d.day ++ "-" ++ padNum 4 d.year
  | .ymdCompact, d => padNum 4 d.year ++ padNum 2 d.month ++ padNum 2 d.day
  | .mdy2, d => padNum 2 d.month ++ "/" ++ padNum 2 d.day ++ "/" ++ padNum 2 (d.year % 100)

/-- `strftime('%Y%m%d')`. -/
def fmtYYYYMMDD (d : Date) : String := padNum 4 d.year ++ padNum 2 d.month ++ padNum 2 d.day

/-- `strftime('%m/%d/%Y')`. -/
def fmtMDYSlash (d : Date) : String :=
  padNum 2 d.month ++ "/" ++ padNum 2 d.day ++ "/" ++ padNum 4 d.year

/-- The character map of `create_handle`: lower-case, then replace every
character outside the regex class `[a-zA-Z0-9-]` (the code point ranges
97–122, 65–90, 48–57 and the dash) with `'-'`. -/
def lowerSubChar (c : Char) : Char :=
  let c := c.toLower
  if (97 ≤ c.toNat ∧ c.toNat ≤ 122) ∨ (65 ≤ c.toNat ∧ c.toNat ≤ 90) ∨
      (48 ≤ c.toNat ∧ c.toNat ≤ 57) ∨ c = '-' then c
  else '-'

/-- `re.sub('-+', '-', ·)`: keep a dash only when the previous kept
character is not a dash. -/
def collapseDashGo (prev : Char) : List Char → List Char
  | [] => []
  | c :: rest =>
    if prev = '-' ∧ c = '-' then collapseDashGo prev rest
    else c :: collapseDashGo c rest

def collapseDashes : List Char → List Char
  | [] => []
  | c :: rest => c :: collapseDashGo c rest

/-- Python `str.strip('-')`. -/
def stripDashes (cs : List Char) : List Char :=
  ((cs.dropWhile (· = '-')).reverse.dropWhile (· = '-')).reverse

/-- `PreorderTransformer.create_handle`: join the non-empty stripped parts
and the `%Y%m%d` date with `'-'`, lower-case, replace characters outside
`[a-zA-Z0-9-]` with `'-'`, collapse dash runs, strip boundary dashes. -/
def create_handle (artist title details : String) (releaseDate : Date) : String :=
  let parts := [pyStripChars artist.data, pyStripChars title.data,
    pyStripChars details.data, (fmtYYYYMMDD releaseDate).data]
  let joined := List.intercalate ['-'] (parts.filter (· ≠ []))
  ⟨stripDashes (collapseDashes (joined.map lowerSubChar))⟩

/-- `PreorderTransformer.create_title`:
`"{artist} - {album} LP"` plus the formatted details in parentheses when
they format to something non-empty. -/
def create_title (artist album color_details : String) : String :=
  let artist := pyStrip artist
  let album := pyStrip album
  let cd := pyStrip color_details
  let title := artist ++ " - " ++ album ++ " LP"
  if cd ≠ "" then
    let fd := format_vinyl_details cd
    if fd ≠ "" then title ++ " (" ++ fd ++ ")" else title
  else title

/-- `PreorderTransformer.calculate_weight_grams`. -/
def calculate_weight_grams (format_type : String) : Nat :=
  if format_type = "VINYL LP" then 180
  else if format_type = "12-INCH SINGLE" then 140
  else if format_type = "7-INCH SINGLE" then 40
  else 180

/-- `PreorderTransformer.create_description`: the fixed preamble with the
`%m/%d/%Y` release date, plus the notes wrapped in `<p>` when they are
non-empty, not the null marker, and not already HTML. -/
def create_description (item_notes : String) (releaseDate : Date) : String :=
  let preamble :=
    "<p>This is a preorder for " ++ fmtMDYSlash releaseDate ++
    "! We will ship as soon as your full order arrives, which will usually be that day or the following day. Occasionally, it may be up to a week later. See the full list of the week for more details, and email info@latchkeyrecords.com with any questions!</p>"
  let n := pyStrip item_notes
  if n ≠ "" ∧ pyLower n ≠ "nan" then
    preamble ++ (if ['<'].isPrefixOf n.data then n else "<p>" ++ n ++ "</p>")
  else preamble

/- ------------------------------------------------------------------ -/
/- Records, the two-stage filter, and the transform loop.              -/
/- ------------------------------------------------------------------ -/

/-- One row of the Alliance feed, with the columns the transform reads.
Fields hold the raw cell text; an absent cell is the empty string, which is
what `safe_get` returns for it. -/
structure CatalogRecord where
  artist : String
  itemName : String
  formatDesc : String
  itemFormat : String
  barcode : String
  msrp : String
  delimMisc : String
  itemNotes : String
  imgHttpPath : String
  availDt : String
deriving DecidableEq, Repr

/-- The computed columns of one Shopify output row (the remaining columns
of the source dict are constants). -/
structure ShopifyRow where
  handle : String
  variantBarcode : String
  title : String
  bodyHTML : String
  vendor : String
  tags : String
  variantGrams : Nat
  variantPrice : ℚ
  variantCompareAtPrice : ℚ
  imageSrc : String
  costPerItem : ℚ
  status : String
deriving DecidableEq, Repr

def vinyl_formats : List String := ["12-INCH SINGLE", "7-INCH SINGLE", "VINYL LP"]

def buildShopifyRow (target : Date) (r : CatalogRecord)
    (cost adjusted_msrp club_price : ℚ) : ShopifyRow :=
  { handle := create_handle (pyStrip r.artist) (pyStrip r.itemName) (pyStrip r.delimMisc) target
    variantBarcode := pyStrip r.barcode
    title := create_title (pyStrip r.artist) (pyStrip r.itemName) (pyStrip r.delimMisc)
    bodyHTML := create_description (pyStrip r.itemNotes) target
    vendor := "Alliance Entertainment"
    tags := "preorder club,preorder" ++ fmtYYYYMMDD target
    variantGrams := calculate_weight_grams (pyStrip r.formatDesc)
    variantPrice := club_price
    variantCompareAtPrice := adjusted_msrp
    imageSrc := pyStrip r.imgHttpPath
    costPerItem := cost
    status := "draft" }

/-- What the per-record body of `transform_to_shopify` does with one row. -/
inductive RecordResult where
  | skippedMissing
  | skippedDate
  | skippedFormat
  | droppedPricing
  | matchedRow (row : ShopifyRow)
deriving DecidableEq, Repr

/-- The per-record control flow of `transform_to_shopify`: required-field
check, then the date filter, then the format filter, then pricing (a `None`
or falsy-zero cost silently drops the record). -/
def classifyRecord (target : Date) (r : CatalogRecord) : RecordResult :=
  let artist := pyStrip r.artist
  let album := pyStrip r.itemName
  let format_desc := pyStrip r.formatDesc
  if artist = "" ∨ album = "" then .skippedMissing
  else
    match parse_avail_date r.availDt with
    | none => .skippedDate
    | some avail =>
      if avail.toDate ≠ target then .skippedDate
      else if format_desc ∉ vinyl_formats then .skippedFormat
      else
        match calculate_pricing r.msrp with
        | none => .droppedPricing
        | some (cost, adjusted_msrp, club_price) =>
          if cost = 0 then .droppedPricing
          else .matchedRow (buildShopifyRow target r cost adjusted_msrp club_price)

/-- The running counters of `transform_to_shopify`. -/
structure RunCounters where
  date_matches : Nat
  vinyl_count : Nat
  skipped_count : Nat
deriving DecidableEq, Repr

def stepCounters (c : RunCounters) : RecordResult → RunCounters
  | .skippedMissing => { c with skipped_count := c.skipped_count + 1 }
  | .skippedDate => { c with skipped_count := c.skipped_count + 1 }
  | .skippedFormat =>
    { c with date_matches := c.date_matches + 1, skipped_count := c.skipped_count + 1 }
  | .droppedPricing =>
    { c with date_matches := c.date_matches + 1, vinyl_count := c.vinyl_count + 1 }
  | .matchedRow _ =>
    { c with date_matches := c.date_matches + 1, vinyl_count := c.vinyl_count + 1 }

def rowsOf : RecordResult → List ShopifyRow
  | .matchedRow row => [row]
  | _ => []

/-- One iteration of the loop of `transform_to_shopify`. -/
def transformStep (target : Date) (acc : List ShopifyRow × RunCounters)
    (r : CatalogRecord) : List ShopifyRow × RunCounters :=
  let res := classifyRecord target r
  (acc.1 ++ rowsOf res, stepCounters acc.2 res)

/-- `PreorderTransformer.transform_to_shopify`: fold the per-record body
over the record list, accumulating output rows and counters. -/
def transform_to_shopify (records : List CatalogRecord) (target : Date) :
    List ShopifyRow × RunCounters :=
  records.foldl (transformStep target) ([], ⟨0, 0, 0⟩)

/- ------------------------------------------------------------------ -/
/- Encoding / delimiter detection (`streamlit_app.process_alliance_catalog`
   and the CLI loader `load_alliance_data`).                           -/
/- ------------------------------------------------------------------ -/

inductive Enc where
  | utf16 | utf16le | utf16be | utf8 | latin1
deriving DecidableEq, Repr

inductive Sep where
  | pipe | comma | tab
deriving DecidableEq, Repr

def encodings_to_try : List Enc := [.utf16, .utf16le, .utf16be, .utf8, .latin1]

def separators_to_try : List Sep := [.pipe, .comma, .tab]

/-- The outcome of trial-parsing the 5-row sample of a given input file
under one encoding/separator pair: `some n` when `read_csv` succeeds with
`n` columns, `none` when it raises. -/
abbrev TrialParse := Enc → Sep → Option Nat

/-- The detection loop accepts a pair when the trial parse succeeded with
more than 5 columns. -/
def acceptable (trial : TrialParse) (p : Enc × Sep) : Bool :=
  match trial p.1 p.2 with
  | some n => decide (n > 5)
  | none => false

/-- The pairs in the order the nested loops visit them: encodings outer
(16-bit first), separators inner (pipe, comma, tab). -/
def detectionOrder : List (Enc × Sep) :=
  encodings_to_try.flatMap fun e => separators_to_try.map fun s => (e, s)

/-- The nested detection loops of `process_alliance_catalog` with their
`break` on first success. -/
def detect_format (trial : TrialParse) : Option (Enc × Sep) :=
  detectionOrder.find? (acceptable trial)

/-- `PreorderTransformer.load_alliance_data`: a single `read_csv` with the
hard-coded `utf-16` encoding and `'|'` separator; `None` when it raises. -/
def load_alliance_data (trial : TrialParse) : Option (Enc × Sep) :=
  if (trial .utf16 .pipe).isSome then some (.utf16, .pipe) else none

/-- The web-app run: detect the format, abort the whole run with an error
(no partial output) when detection fails, otherwise transform. -/
def process_alliance_catalog (trial : TrialParse) (records : List CatalogRecord)
    (target : Date) : Except String (List ShopifyRow) :=
  match detect_format trial with
  | none => .error "Could not detect file format"
  | some _ => .ok (transform_to_shopify records target).1

/- ------------------------------------------------------------------ -/
/- Specification-side definitions for comparison.                      -/
/- ------------------------------------------------------------------ -/

/-- The Pricing Engine contract exactly as §4.4 of the specification
states it: `estimated_cost = price × 0.77`, the list-price bump, and the
club price with its two nested tier additions. -/
def pricing_spec (p : ℚ) : ℚ × ℚ × ℚ :=
  let estimated_cost := (77 / 100 : ℚ) * p
  let adjusted_list_price :=
    if p < (estimated_cost + 6) + 6 then (estimated_cost + 6) + 7 else p
  let club :=
    if (estimated_cost + 6) - estimated_cost > 14 then
      let c1 := (estimated_cost + 6) + 4
      if c1 - estimated_cost > 20 then c1 + 9 else c1
    else estimated_cost + 6
  (estimated_cost, adjusted_list_price, club)

/-- Membership in the handle alphabet `[a-z0-9-]`. -/
def isHandleChar (c : Char) : Prop :=
  (97 ≤ c.toNat ∧ c.toNat ≤ 122) ∨ (48 ≤ c.toNat ∧ c.toNat ≤ 57) ∨ c = '-'

instance (c : Char) : Decidable (isHandleChar c) := by
  unfold isHandleChar; infer_instance

/-- A concrete catalog row used to instantiate the theorems below. -/
def sampleRecord : CatalogRecord :=
  ⟨"Test Artist", "Test Album", "VINYL LP", "", "123456789012", "24.98",
   "LTD^COLORED VINYL", "", "", "2025-09-19"⟩

def sampleTarget : Date := ⟨2025, 9, 19⟩

/- ------------------------------------------------------------------ -/
/- Claim theorems.                                                     -/
/- ------------------------------------------------------------------ -/

/-- `parseFloat` at the spec's example MSRP, exposed by reduction and
normalised by arithmetic. -/
lemma parseFloat_msrp_example : parseFloat "24.98" = some (1249 / 50 : ℚ) := by
  have h : parseFloat "24.98" =
      some ((1 : ℚ) * ((natOfDigits [2, 4] : ℚ) +
        (natOfDigits [9, 8] : ℚ) / (10 : ℚ) ^ (2 : Nat))) := rfl
  rw [h]; norm_num [natOfDigits]

lemma parseFloat_zero : parseFloat "0" = some (0 : ℚ) := by
  have h : parseFloat "0" =
      some ((1 : ℚ) * ((natOfDigits [0] : ℚ) +
        (natOfDigits [] : ℚ) / (10 : ℚ) ^ (0 : Nat))) := rfl
  rw [h]; norm_num [natOfDigits]

lemma parseFloat_neg_ten : parseFloat "-10" = some (-10 : ℚ) := by
  have h : parseFloat "-10" =
      some ((-1 : ℚ) * ((natOfDigits [1, 0] : ℚ) +
        (natOfDigits [] : ℚ) / (10 : ℚ) ^ (0 : Nat))) := rfl
  rw [h]; norm_num [natOfDigits]

/-- C1: for every MSRP string that parses as a decimal number `p`, the
Pricing Engine returns exactly the §4.4 triple: estimated cost `0.77 · p`,
the adjusted list price `(0.77·p + 6) + 7` when `p < (0.77·p + 6) + 6` and
the original `p` otherwise, and the club price `0.77·p + 6` with the two
conditional tier additions, computed exactly (no rounding). -/
theorem calculate_pricing_matches_spec (s : String) (p : ℚ)
    (h : parseFloat s = some p) : calculate_pricing s = some (pricing_spec p) := by
  unfold calculate_pricing pricing_spec
  rw [h]
  simp only [cost_multiplier, base_markup, msrp_minimum_markup, club_base_markup,
    club_tier1_threshold, club_tier1_addition, club_tier2_threshold,
    club_tier2_addition]
  rw [mul_comm]

/-- Witness for C1 at the spec's own example MSRP `24.98`. -/
theorem calculate_pricing_matches_spec_w :
    parseFloat "24.98" = some (1249 / 50 : ℚ) ∧
      calculate_pricing "24.98" = some (pricing_spec (1249 / 50 : ℚ)) :=
  ⟨parseFloat_msrp_example,
   calculate_pricing_matches_spec "24.98" _ parseFloat_msrp_example⟩

/-- C9: for every MSRP that parses, the returned club price is exactly the
estimated cost plus the club base markup 6, and the first tier test
`cost_diff > 14` is false there, so the `+4` and nested `+9` additions are
unreachable. -/
theorem club_price_eq_cost_plus_six (s : String) (p : ℚ)
    (h : parseFloat s = some p) :
    ∃ a, calculate_pricing s = some (p * cost_multiplier, a,
        p * cost_multiplier + club_base_markup) ∧
      ¬(p * cost_multiplier + club_base_markup - p * cost_multiplier >
          club_tier1_threshold) := by
  have hc : ¬(p * cost_multiplier + club_base_markup - p * cost_multiplier >
      club_tier1_threshold) := by
    rw [add_sub_cancel_left]
    norm_num [club_base_markup, club_tier1_threshold]
  unfold calculate_pricing
  rw [h]
  dsimp only
  rw [if_neg hc]
  exact ⟨_, rfl, hc⟩

/-- Witness for C9 at MSRP `24.98`. -/
theorem club_price_eq_cost_plus_six_w :
    parseFloat "24.98" = some (1249 / 50 : ℚ) ∧
      ∃ a, calculate_pricing "24.98" = some ((1249 / 50 : ℚ) * cost_multiplier, a,
          (1249 / 50 : ℚ) * cost_multiplier + club_base_markup) ∧
        ¬((1249 / 50 : ℚ) * cost_multiplier + club_base_markup -
            (1249 / 50 : ℚ) * cost_multiplier > club_tier1_threshold) :=
  ⟨parseFloat_msrp_example, club_price_eq_cost_plus_six "24.98" _ parseFloat_msrp_example⟩

/-- C3: formatting the calendar date 2025-09-19 with each of the seven
supported format strings and running the result back through
`parse_avail_date` (which tries the formats in their fixed priority order)
returns the original calendar date. -/
theorem avail_date_round_trip :
    (parse_avail_date (strfDate .ymdHMS ⟨2025, 9, 19⟩)).map DateTime.toDate
        = some ⟨2025, 9, 19⟩ ∧
    (parse_avail_date (strfDate .ymd ⟨2025, 9, 19⟩)).map DateTime.toDate
        = some ⟨2025, 9, 19⟩ ∧
    (parse_avail_date (strfDate .mdyHMS ⟨2025, 9, 19⟩)).map DateTime.toDate
        = some ⟨2025, 9, 19⟩ ∧
    (parse_avail_date (strfDate .mdy ⟨2025, 9, 19⟩)).map DateTime.toDate
        = some ⟨2025, 9, 19⟩ ∧
    (parse_avail_date (strfDate .mdyDash ⟨2025, 9, 19⟩)).map DateTime.toDate
        = some ⟨2025, 9, 19⟩ ∧
    (parse_avail_date (strfDate .ymdCompact ⟨2025, 9, 19⟩)).map DateTime.toDate
        = some ⟨2025, 9, 19⟩ ∧
    (parse_avail_date (strfDate .mdy2 ⟨2025, 9, 19⟩)).map DateTime.toDate
        = some ⟨2025, 9, 19⟩ := by
  decide

/-- All-formats-fail implies `firstParse` returns `none`. -/
lemma firstParse_eq_none (fs : List AvailFmt) (cs : List Char)
    (h : ∀ f ∈ fs, tryFmt f cs = none) : firstParse fs cs = none := by
  induction fs with
  | nil => rfl
  | cons f fs ih =>
    unfold firstParse
    rw [h f (List.mem_cons_self f fs)]
    exact ih fun g hg => h g (List.mem_cons_of_mem f hg)

/-- C6: the availability-date parser is a total function into
`Option DateTime` (it never raises): an input that is empty after trimming
or equals the literal null marker `nan` yields `none`, and an input on
which all seven formats fail yields `none` as well. -/
theorem parse_avail_date_absent_or_unparseable (s : String) :
    (pyStrip s = "" ∨ pyLower (pyStrip s) = "nan" → parse_avail_date s = none) ∧
    ((∀ f ∈ availDateFormats, tryFmt f (pyStrip s).data = none) →
      parse_avail_date s = none) := by
  constructor
  · intro h
    unfold parse_avail_date
    dsimp only
    rw [if_pos h]
  · intro h
    unfold parse_avail_date
    dsimp only
    split
    · rfl
    · exact firstParse_eq_none _ _ h

/-- Witness for C6: a whitespace-only input, the `NaN` marker, and a
non-date string all produce `none`. -/
theorem parse_avail_date_absent_or_unparseable_w :
    parse_avail_date "  " = none ∧ parse_avail_date "NaN" = none ∧
      parse_avail_date "NOT A DATE" = none :=
  ⟨(parse_avail_date_absent_or_unparseable "  ").1 (by decide),
   (parse_avail_date_absent_or_unparseable "NaN").1 (by decide),
   (parse_avail_date_absent_or_unparseable "NOT A DATE").2 (by decide)⟩

/-- C7 counterexample: on the part `EPIC`, title-casing gives `Epic` and the
dictionary entry `Ep → EP` fires inside the word because `str.replace` is a
substring replacement, producing `EPic`; a token (whole-word) replacement
would leave `Epic` unchanged.  So the formatter does not apply the
dictionary as token replacements. -/
theorem detail_substring_vs_token_counterexample :
    format_vinyl_details "EPIC" = "EPic" ∧
      format_vinyl_details_tokens "EPIC" = "Epic" ∧
      format_vinyl_details "EPIC" ≠ format_vinyl_details_tokens "EPIC" := by
  decide

/-- The amended claim's description of the formatter: split on caret, trim
each part and drop empty ones, title-case, apply the fixed dictionary as
substring replacements in order, trim each slash-segment of parts
containing a slash, join with `", "`; empty or null-marker input yields
empty output. -/
def format_vinyl_details_claim (s : String) : String :=
  if pyStrip s = "" ∨ pyLower (pyStrip s) = "nan" then ""
  else
    ⟨List.intercalate (", ".data)
      ((((splitOnCh '^' (pyStrip s).data).map pyStripChars).filter (· ≠ [])).map
        fun part =>
          let t := detailReplacements.foldl
            (fun acc pr => pyReplace pr.1.data pr.2.data acc) (pyTitleGo false part)
          if t.contains '/' then
            List.intercalate ['/'] ((splitOnCh '/' t).map pyStripChars)
          else t)⟩

/-- C7 (amended: the dictionary is applied as plain substring replacements,
not token replacements): the formatter realises exactly the amended
pipeline for every input, maps the spec's example
`LTD^COLORED VINYL^GATEFOLD` to `Ltd, Colored Vinyl, Gatefold`, and maps
empty input to empty output. -/
theorem format_vinyl_details_pipeline :
    (∀ s, format_vinyl_details s = format_vinyl_details_claim s) ∧
    format_vinyl_details "LTD^COLORED VINYL^GATEFOLD" = "Ltd, Colored Vinyl, Gatefold" ∧
    format_vinyl_details "" = "" := by
  refine ⟨fun s => rfl, by decide, rfl⟩

/-- C2: for a record with non-empty artist and title the filter works in
fixed stage order: when the availability date is absent, unparseable, or
differs as a calendar date from the target (time-of-day is discarded by
`DateTime.toDate`), the record is skipped as a date mismatch and its format
field is never consulted (any format yields the same result); otherwise a
format outside the accepted set is skipped as a format mismatch, whose
counter step also increments the date-match counter; otherwise the record
is matched by the filter (reaching the pricing stage). -/
theorem filter_stage_order (target : Date) (r : CatalogRecord)
    (ha : pyStrip r.artist ≠ "") (ht : pyStrip r.itemName ≠ "") :
    ((parse_avail_date r.availDt).map DateTime.toDate ≠ some target →
      classifyRecord target r = .skippedDate ∧
      ∀ f, classifyRecord target { r with formatDesc := f } = .skippedDate) ∧
    ((parse_avail_date r.availDt).map DateTime.toDate = some target →
      (pyStrip r.formatDesc ∉ vinyl_formats →
        classifyRecord target r = .skippedFormat ∧
        ∀ c, stepCounters c .skippedFormat =
          { c with date_matches := c.date_matches + 1,
                   skipped_count := c.skipped_count + 1 }) ∧
      (pyStrip r.formatDesc ∈ vinyl_formats →
        classifyRecord target r = .droppedPricing ∨
        ∃ row, classifyRecord target r = .matchedRow row)) := by
  have hna : ¬(pyStrip r.artist = "" ∨ pyStrip r.itemName = "") := by
    intro h; rcases h with h | h
    · exact ha h
    · exact ht h
  constructor
  · intro hd
    constructor
    · unfold classifyRecord
      dsimp only
      rw [if_neg hna]
      cases hp : parse_avail_date r.availDt with
      | none => rfl
      | some dt =>
        rw [hp] at hd
        have : dt.toDate ≠ target := by
          intro he; exact hd (by simp [he])
        dsimp only
        rw [if_pos this]
    · intro f
      unfold classifyRecord
      dsimp only
      rw [if_neg hna]
      cases hp : parse_avail_date r.availDt with
      | none => rfl
      | some dt =>
        rw [hp] at hd
        have : dt.toDate ≠ target := by
          intro he; exact hd (by simp [he])
        dsimp only
        rw [if_pos this]
  · intro hd
    cases hp : parse_avail_date r.availDt with
    | none => rw [hp] at hd; exact absurd hd (by simp)
    | some dt =>
      rw [hp] at hd
      have hdt : dt.toDate = target := by simpa using hd
      constructor
      · intro hf
        constructor
        · unfold classifyRecord
          dsimp only
          rw [if_neg hna, hp]
          dsimp only
          rw [if_neg (by simp [hdt]), if_pos hf]
        · intro c; rfl
      · intro hf
        unfold classifyRecord
        dsimp only
        rw [if_neg hna, hp]
        dsimp only
        rw [if_neg (by simp [hdt]), if_neg (by simp [hf])]
        cases hpr : calculate_pricing r.msrp with
        | none => exact Or.inl rfl
        | some t =>
          obtain ⟨cost, adj, club⟩ := t
          by_cases hc : cost = 0
          · exact Or.inl (by dsimp only; rw [if_pos hc])
          · exact Or.inr ⟨_, by dsimp only; rw [if_neg hc]⟩

/-- Witness for C2: a record dated one day off the target is skipped as a
date mismatch. -/
theorem filter_stage_order_w :
    classifyRecord sampleTarget { sampleRecord with availDt := "2025-09-20" }
      = .skippedDate :=
  ((filter_stage_order sampleTarget { sampleRecord with availDt := "2025-09-20" }
      (by decide) (by decide)).1 (by decide)).1

/-- Evaluation of `calculate_pricing` on a parsed MSRP `m`: the club tier
conditions collapse because the cost difference is the constant 6. -/
lemma calculate_pricing_eq (s : String) (m : ℚ) (h : parseFloat s = some m) :
    calculate_pricing s = some (m * cost_multiplier,
      if m < m * cost_multiplier + base_markup + 6
      then m * cost_multiplier + base_markup + msrp_minimum_markup else m,
      m * cost_multiplier + club_base_markup) := by
  have hclub : ¬(m * cost_multiplier + club_base_markup - m * cost_multiplier >
      club_tier1_threshold) := by
    rw [add_sub_cancel_left]
    norm_num [club_base_markup, club_tier1_threshold]
  unfold calculate_pricing
  rw [h]
  dsimp only
  rw [if_neg hclub]

/-- C10: a record that passes the required-field, date, and format filters
but whose MSRP parses to exactly 0 is treated by the caller's falsy-cost
check exactly like an unparseable price: it is silently dropped, producing
no output row and leaving the skipped counter untouched; a negative MSRP
instead yields a nonzero cost and does produce an output row. -/
theorem zero_msrp_silently_dropped (target : Date) (r : CatalogRecord)
    (ha : pyStrip r.artist ≠ "") (ht : pyStrip r.itemName ≠ "")
    (hd : (parse_avail_date r.availDt).map DateTime.toDate = some target)
    (hf : pyStrip r.formatDesc ∈ vinyl_formats) :
    (calculate_pricing r.msrp = none → classifyRecord target r = .droppedPricing) ∧
    (parseFloat r.msrp = some 0 →
      classifyRecord target r = .droppedPricing ∧
      transform_to_shopify [r] target =
        ([], { date_matches := 1, vinyl_count := 1, skipped_count := 0 })) ∧
    (∀ q, parseFloat r.msrp = some q → q < 0 →
      ∃ row, classifyRecord target r = .matchedRow row) := by
  have hna : ¬(pyStrip r.artist = "" ∨ pyStrip r.itemName = "") := by
    intro h; rcases h with h | h
    · exact ha h
    · exact ht h
  cases hp : parse_avail_date r.availDt with
  | none => rw [hp] at hd; exact absurd hd (by simp)
  | some dt =>
    rw [hp] at hd
    have hdt : dt.toDate = target := by simpa using hd
    have hpre : ∀ res, calculate_pricing r.msrp = res →
        classifyRecord target r = (match res with
          | none => .droppedPricing
          | some (cost, adj, club) =>
            if cost = 0 then .droppedPricing
            else .matchedRow (buildShopifyRow target r cost adj club)) := by
      intro res hres
      unfold classifyRecord
      dsimp only
      rw [if_neg hna, hp]
      dsimp only
      rw [if_neg (by simp [hdt]), if_neg (by simp [hf]), hres]
    refine ⟨fun hn => by rw [hpre none hn], fun h0 => ?_, fun q hq hlt => ?_⟩
    · have hcls : classifyRecord target r = .droppedPricing := by
        rw [hpre _ (calculate_pricing_eq r.msrp 0 h0)]
        dsimp only
        rw [if_pos (zero_mul cost_multiplier)]
      refine ⟨hcls, ?_⟩
      unfold transform_to_shopify
      rw [List.foldl_cons, List.foldl_nil]
      unfold transformStep
      rw [hcls]
      rfl
    · have hne : q * cost_multiplier ≠ 0 := by
        have hq0 : q ≠ 0 := ne_of_lt hlt
        simp [cost_multiplier, hq0]
      refine ⟨buildShopifyRow target r (q * cost_multiplier)
        (if q < q * cost_multiplier + base_markup + 6
         then q * cost_multiplier + base_markup + msrp_minimum_markup else q)
        (q * cost_multiplier + club_base_markup), ?_⟩
      rw [hpre _ (calculate_pricing_eq r.msrp q hq)]
      dsimp only
      rw [if_neg hne]

/-- Witness for C10: the sample record with MSRP `0` is dropped with no
row and no skip count, and with MSRP `-10` it produces a row. -/
theorem zero_msrp_silently_dropped_w :
    (classifyRecord sampleTarget { sampleRecord with msrp := "0" } = .droppedPricing ∧
      transform_to_shopify [{ sampleRecord with msrp := "0" }] sampleTarget =
        ([], { date_matches := 1, vinyl_count := 1, skipped_count := 0 })) ∧
    ∃ row, classifyRecord sampleTarget { sampleRecord with msrp := "-10" }
        = .matchedRow row :=
  ⟨(zero_msrp_silently_dropped sampleTarget { sampleRecord with msrp := "0" }
      (by decide) (by decide) (by decide) (by decide)).2.1 parseFloat_zero,
   (zero_msrp_silently_dropped sampleTarget { sampleRecord with msrp := "-10" }
      (by decide) (by decide) (by decide) (by decide)).2.2 (-10)
      parseFloat_neg_ten (by norm_num)⟩

/-- The records of a run that the pricing guard silently drops. -/
def droppedCount (target : Date) (records : List CatalogRecord) : Nat :=
  records.countP fun r => decide (classifyRecord target r = .droppedPricing)

/-- C4 counterexample: one record that passes every filter but has an
unparseable MSRP (`N/A`) is neither emitted nor counted as skipped, so the
total processed (1) differs from rows emitted (0) plus skipped (0). -/
theorem summary_counters_counterexample :
    (transform_to_shopify [{ sampleRecord with msrp := "N/A" }] sampleTarget).1.length +
        (transform_to_shopify [{ sampleRecord with msrp := "N/A" }] sampleTarget).2.skipped_count ≠
      [{ sampleRecord with msrp := "N/A" }].length := by
  decide

/-- Accounting invariant of the transform fold. -/
lemma transform_fold_accounting (target : Date) :
    ∀ (rs : List CatalogRecord) (acc : List ShopifyRow × RunCounters),
      (rs.foldl (transformStep target) acc).1.length +
          (rs.foldl (transformStep target) acc).2.skipped_count +
          droppedCount target rs
        = acc.1.length + acc.2.skipped_count + rs.length := by
  intro rs
  induction rs with
  | nil => intro acc; simp [droppedCount]
  | cons r rs ih =>
    intro acc
    rw [List.foldl_cons]
    have h2 := ih (transformStep target acc r)
    cases hres : classifyRecord target r <;>
      simp [transformStep, hres, rowsOf, stepCounters, droppedCount,
        List.countP_cons] at h2 ⊢ <;> omega

/-- C4 (amended: the missing-field, date-mismatch and format-mismatch skip
conditions are counted, but a record whose price is unparseable — or falsy
zero — after passing all filters is dropped without any counter): every
record is accounted for as an emitted row, a counted skip, or a silent
pricing drop. -/
theorem transform_record_accounting (records : List CatalogRecord) (target : Date) :
    (transform_to_shopify records target).1.length +
        (transform_to_shopify records target).2.skipped_count +
        droppedCount target records
      = records.length := by
  unfold transform_to_shopify
  have h := transform_fold_accounting target records ([], ⟨0, 0, 0⟩)
  simpa using h

/-- A trial-parse table on which only `utf-8` with comma succeeds. -/
def utf8CommaOnly : TrialParse :=
  fun e s => if e = .utf8 ∧ s = .comma then some 10 else none

/-- C5 counterexample: loading is not auto-negotiated everywhere — the CLI
loader `load_alliance_data` hard-codes `utf-16` with pipe, so on an input
whose only working combination is `utf-8` with comma it fails outright
while the detection loop would accept that combination. -/
theorem cli_loader_hard_coded_counterexample :
    detect_format utf8CommaOnly = some (.utf8, .comma) ∧
      load_alliance_data utf8CommaOnly = none ∧
      load_alliance_data utf8CommaOnly ≠ detect_format utf8CommaOnly := by
  decide

/-- `List.find?` returns the first element satisfying the predicate. -/
lemma find?_first_characterization {α : Type} (p : α → Bool) :
    ∀ (l : List α) (x : α), l.find? p = some x →
      ∃ l1 l2, l = l1 ++ x :: l2 ∧ p x = true ∧ ∀ y ∈ l1, p y = false := by
  intro l
  induction l with
  | nil => intro x hx; simp [List.find?] at hx
  | cons a l ih =>
    intro x hx
    by_cases hpa : p a
    · rw [List.find?_cons_of_pos _ hpa] at hx
      obtain rfl : a = x := by simpa using hx
      exact ⟨[], l, rfl, hpa, by simp⟩
    · rw [List.find?_cons_of_neg _ hpa] at hx
      obtain ⟨l1, l2, hl, hpx, hall⟩ := ih x hx
      refine ⟨a :: l1, l2, by rw [hl]; rfl, hpx, ?_⟩
      intro y hy
      rcases List.mem_cons.mp hy with rfl | hy
      · simpa using hpa
      · exact hall y hy

/-- C5 (amended: the web-app path auto-negotiates; the CLI loader
`load_alliance_data` instead hard-codes `utf-16` + pipe): the detection
loop visits the fixed encoding list (16-bit encodings first) crossed with
the fixed delimiter list (pipe, comma, tab) in order, returns the first
combination whose 5-row trial parse yields more than 5 columns, and when
no combination is acceptable the whole web-app run aborts with an error
and produces no output rows. -/
theorem detect_format_first_acceptable (trial : TrialParse)
    (records : List CatalogRecord) (target : Date) :
    (∀ p, detect_format trial = some p →
      ∃ l1 l2, detectionOrder = l1 ++ p :: l2 ∧ acceptable trial p = true ∧
        ∀ q ∈ l1, acceptable trial q = false) ∧
    (detect_format trial = none →
      (∀ p ∈ detectionOrder, acceptable trial p = false) ∧
      process_alliance_catalog trial records target =
        .error "Could not detect file format") := by
  constructor
  · intro p hp
    exact find?_first_characterization (acceptable trial) detectionOrder p hp
  · intro hn
    constructor
    · intro p hp
      have := List.find?_eq_none.mp hn p hp
      simpa using this
    · unfold process_alliance_catalog
      rw [hn]

/-- Witness for C5 at a trial table where every combination fails: no pair
is acceptable, and the run aborts with the detection error. -/
theorem detect_format_first_acceptable_w :
    (∀ p ∈ detectionOrder, acceptable (fun _ _ => (none : Option Nat)) p = false) ∧
      process_alliance_catalog (fun _ _ => (none : Option Nat)) [] sampleTarget =
        .error "Could not detect file format" :=
  (detect_format_first_acceptable (fun _ _ => none) [] sampleTarget).2 (by decide)

/- Helper lemmas for the handle builder. -/

lemma char_toNat_ofNat_lt (n : Nat) (h : n < 55296) : (Char.ofNat n).toNat = n := by
  simp [Char.ofNat, Nat.isValidChar, Char.toNat, h, Char.ofNatAux, UInt32.toNat,
    BitVec.toNat_ofNatLt]

/-- ASCII lower-casing never produces an upper-case letter. -/
lemma toLower_not_upper (c : Char) :
    ¬(65 ≤ (Char.toLower c).toNat ∧ (Char.toLower c).toNat ≤ 90) := by
  unfold Char.toLower
  dsimp only
  split
  · rename_i h
    have hv : (Char.ofNat (c.toNat + 32)).toNat = c.toNat + 32 :=
      char_toNat_ofNat_lt _ (by omega)
    rw [hv]
    omega
  · rename_i h
    omega

lemma lowerSubChar_handle (c : Char) : isHandleChar (lowerSubChar c) := by
  unfold lowerSubChar isHandleChar
  dsimp only
  split
  · rename_i h
    rcases h with h | h | h | h
    · exact Or.inl h
    · exact absurd h (toLower_not_upper c)
    · exact Or.inr (Or.inl h)
    · exact Or.inr (Or.inr h)
  · exact Or.inr (Or.inr rfl)

lemma mem_collapseDashGo {c : Char} :
    ∀ (cs : List Char) (prev : Char), c ∈ collapseDashGo prev cs → c ∈ cs := by
  intro cs
  induction cs with
  | nil => intro prev h; simp [collapseDashGo] at h
  | cons d cs ih =>
    intro prev h
    unfold collapseDashGo at h
    split at h
    · exact List.mem_cons_of_mem d (ih prev h)
    · rcases List.mem_cons.mp h with rfl | h2
      · exact List.mem_cons_self _ _
      · exact List.mem_cons_of_mem d (ih d h2)

lemma mem_collapseDashes {c : Char} {cs : List Char}
    (h : c ∈ collapseDashes cs) : c ∈ cs := by
  cases cs with
  | nil => simp [collapseDashes] at h
  | cons d cs =>
    unfold collapseDashes at h
    rcases List.mem_cons.mp h with rfl | h2
    · exact List.mem_cons_self _ _
    · exact List.mem_cons_of_mem d (mem_collapseDashGo cs d h2)

lemma mem_stripDashes {c : Char} {cs : List Char}
    (h : c ∈ stripDashes cs) : c ∈ cs := by
  unfold stripDashes at h
  rw [List.mem_reverse] at h
  have h2 := (List.dropWhile_suffix _).subset h
  rw [List.mem_reverse] at h2
  exact (List.dropWhile_suffix _).subset h2

/-- No two adjacent characters are both dashes. -/
def noDashPair (a b : Char) : Prop := ¬(a = '-' ∧ b = '-')

lemma chain'_collapseDashGo :
    ∀ (cs : List Char) (prev : Char),
      List.Chain' noDashPair (prev :: collapseDashGo prev cs)
  | [], _ => by simp [collapseDashGo]
  | d :: cs, prev => by
    unfold collapseDashGo
    split
    · exact chain'_collapseDashGo cs prev
    · rename_i h
      rw [List.chain'_cons]
      exact ⟨h, chain'_collapseDashGo cs d⟩

lemma chain'_collapseDashes (cs : List Char) :
    List.Chain' noDashPair (collapseDashes cs) := by
  cases cs with
  | nil => simp [collapseDashes]
  | cons d cs =>
    unfold collapseDashes
    exact chain'_collapseDashGo cs d

lemma flip_noDashPair : flip noDashPair = noDashPair := by
  funext a b
  simp [flip, noDashPair, and_comm]

lemma chain'_stripDashes {cs : List Char} (h : List.Chain' noDashPair cs) :
    List.Chain' noDashPair (stripDashes cs) := by
  unfold stripDashes
  have h1 : List.Chain' noDashPair (cs.dropWhile (fun c => decide (c = '-'))) :=
    h.suffix (List.dropWhile_suffix _)
  have h2 : List.Chain' noDashPair
      ((cs.dropWhile (fun c => decide (c = '-'))).reverse) := by
    rw [List.chain'_reverse, flip_noDashPair]
    exact h1
  have h3 := h2.suffix (List.dropWhile_suffix (fun c => decide (c = '-')))
  rw [List.chain'_reverse, flip_noDashPair]
  exact h3

lemma head?_dropWhile_not (p : Char → Bool) :
    ∀ (l : List Char) (a : Char), (l.dropWhile p).head? = some a → p a = false := by
  intro l
  induction l with
  | nil => intro a h; simp [List.dropWhile] at h
  | cons c l ih =>
    intro a h
    rw [List.dropWhile_cons] at h
    by_cases hpc : p c
    · rw [if_pos hpc] at h; exact ih a h
    · rw [if_neg hpc] at h
      obtain rfl : c = a := by simpa using h
      simpa using hpc

lemma stripDashes_head (cs : List Char) : (stripDashes cs).head? ≠ some '-' := by
  intro h
  unfold stripDashes at h
  rw [List.head?_reverse] at h
  have hne : ((cs.dropWhile (fun c => decide (c = '-'))).reverse.dropWhile
      (fun c => decide (c = '-'))) ≠ [] := by
    intro he
    rw [he] at h
    simp at h
  obtain ⟨t, ht⟩ := List.dropWhile_suffix
    (l := (cs.dropWhile (fun c => decide (c = '-'))).reverse)
    (fun c => decide (c = '-'))
  have hlast : ((cs.dropWhile (fun c => decide (c = '-'))).reverse).getLast?
      = some '-' := by
    rw [← ht, List.getLast?_append_of_ne_nil t hne, h]
  rw [List.getLast?_reverse] at hlast
  have := head?_dropWhile_not _ cs '-' hlast
  simp at this

lemma stripDashes_getLast (cs : List Char) :
    (stripDashes cs).getLast? ≠ some '-' := by
  intro h
  unfold stripDashes at h
  rw [List.getLast?_reverse] at h
  have := head?_dropWhile_not _ _ '-' h
  simp at this

/-- C8: the handle builder is deterministic, and its output uses only the
alphabet `[a-z0-9-]`, has no two consecutive dashes, and neither starts
nor ends with a dash. -/
theorem create_handle_url_safe (artist title details : String) (d : Date) :
    create_handle artist title details d = create_handle artist title details d ∧
    (∀ c ∈ (create_handle artist title details d).data, isHandleChar c) ∧
    List.Chain' noDashPair (create_handle artist title details d).data ∧
    (create_handle artist title details d).data.head? ≠ some '-' ∧
    (create_handle artist title details d).data.getLast? ≠ some '-' := by
  have hdata : (create_handle artist title details d).data =
      stripDashes (collapseDashes ((List.intercalate ['-']
        (([pyStripChars artist.data, pyStripChars title.data,
           pyStripChars details.data,
           (fmtYYYYMMDD d).data]).filter (· ≠ []))).map lowerSubChar)) := rfl
  refine ⟨rfl, ?_, ?_, ?_, ?_⟩
  · rw [hdata]
    intro c hc
    have h1 := mem_collapseDashes (mem_stripDashes hc)
    obtain ⟨a, _, rfl⟩ := List.mem_map.mp h1
    exact lowerSubChar_handle a
  · rw [hdata]
    exact chain'_stripDashes (chain'_collapseDashes _)
  · rw [hdata]
    exact stripDashes_head _
  · rw [hdata]
    exact stripDashes_getLast _

end Latchkey
